import Mathlib

/-!
# Verification of the streaming-tree / drift-detection core of `Bantey17/river`

Shallow embedding, over exact reals, of:

* `creme/drift/hddm_w.py` (the `HDDM_W` change detector),
* `creme/tree/hoeffding_tree_regressor.py` (the split-decision procedure
  `_attempt_to_split`, `learn_one`, `predict_one`),
* `river/tree/hoeffding_adaptive_tree_classifier.py` and
  `creme/tree/hoeffding_adaptive_tree_classifier.py` (`learn_one`,
  `predict_proba_one`),
* `creme/multioutput/chain.py` (`ClassifierChain`, `RegressorChain`).

Python floats are modelled as real numbers; Python `None` as `Option.none`;
mutation as explicit state passing (with an explicit heap of dictionaries where
aliasing matters).  Collaborator code that lives outside the provided sources
(attribute observers, split criteria, node descent, the drift-detector base
class, small dict utilities) enters either as function parameters or as
definitions whose doc comment starts with `Modelled from the spec:`.
-/

open Classical

noncomputable section

namespace River

/-! ## `creme.drift.hddm_w.HDDM_W` -/

/-- `HDDM_W.SampleInfo`: one EWMA estimator together with its
"independent bounded condition sum" (variance proxy).  Freshly constructed
Python objects carry `EWMA_estimator = -1.0` (the "uninitialized" sentinel)
and a zero variance proxy. -/
structure SampleInfo where
  ewma : ℝ
  ibcSum : ℝ
  deriving DecidableEq

/-- A freshly constructed `SampleInfo()`. -/
def SampleInfo.fresh : SampleInfo := ⟨-1, 0⟩

/-- The EWMA/variance-proxy recurrence that `HDDM_W.update`,
`_update_incr_statistics` and `_update_decr_statistics` all apply to fold one
value into a `SampleInfo`: an uninitialized estimator (`EWMA < 0`) is seeded
with the value and a unit variance proxy, otherwise
`EWMA' = λ·v + (1-λ)·EWMA` and `ibc' = λ² + (1-λ)²·ibc`. -/
def foldSample (lam : ℝ) (s : SampleInfo) (v : ℝ) : SampleInfo :=
  if s.ewma < 0 then ⟨v, 1⟩
  else ⟨lam * v + (1 - lam) * s.ewma,
        lam * lam + (1 - lam) * (1 - lam) * s.ibcSum⟩

/-- `a < cut` where `cut` may be `float("inf")` (represented by `none`). -/
def ltCut (a : ℝ) : Option ℝ → Prop
  | none => True
  | some r => a < r

/-- `a > cut` where `cut` may be `float("inf")` (represented by `none`). -/
def gtCut (a : ℝ) : Option ℝ → Prop
  | none => False
  | some r => a > r

/-- The fields of an `HDDM_W` instance other than the in-drift/in-warning
status pair and `estimation`: the five `SampleInfo` accumulators, both cut
points (`none` = `float("inf")`), the `width`/`delay` counters and the
constructor parameters. -/
structure HDDMWCore where
  total : SampleInfo
  s1d : SampleInfo
  s1i : SampleInfo
  s2d : SampleInfo
  s2i : SampleInfo
  incrCut : Option ℝ
  decrCut : Option ℝ
  width : ℕ
  delay : ℕ
  driftConf : ℝ
  warnConf : ℝ
  lam : ℝ
  twoSided : Bool

/-- The full `HDDM_W` state.  `inCC`/`inWZ` are the
`_in_concept_change`/`_in_warning_zone` pair held by the `DriftDetector` base
class; `estimation` is the `estimation` attribute (`none` = Python `None`). -/
structure HDDMW where
  core : HDDMWCore
  inCC : Bool
  inWZ : Bool
  estimation : Option ℝ

/-- The accumulator/cut-point part of `HDDM_W.__init__`. -/
def coreInit (driftConf warnConf lam : ℝ) (twoSided : Bool) : HDDMWCore :=
  { total := SampleInfo.fresh
    s1d := SampleInfo.fresh
    s1i := SampleInfo.fresh
    s2d := SampleInfo.fresh
    s2i := SampleInfo.fresh
    incrCut := none
    decrCut := none
    width := 0
    delay := 0
    driftConf := driftConf
    warnConf := warnConf
    lam := lam
    twoSided := twoSided }

/-- `HDDM_W(drift_confidence, warning_confidence, lambda_option,
two_sided_test)`: a freshly constructed detector. -/
def HDDMW.init (driftConf warnConf lam : ℝ) (twoSided : Bool) : HDDMW :=
  { core := coreInit driftConf warnConf lam twoSided
    inCC := false
    inWZ := false
    estimation := none }

/-- The accumulator part of `HDDM_W.reset`: the five `SampleInfo`s become
fresh, both cut points become `float("inf")`, `width` and `delay` become 0;
the constructor parameters are untouched. -/
def coreReset (c : HDDMWCore) : HDDMWCore :=
  { c with
    total := SampleInfo.fresh
    s1d := SampleInfo.fresh
    s1i := SampleInfo.fresh
    s2d := SampleInfo.fresh
    s2i := SampleInfo.fresh
    incrCut := none
    decrCut := none
    width := 0
    delay := 0 }

/-- `HDDM_W.reset`.  The `super().reset()` call resolves to the
`DriftDetector` base class, which is not among the provided sources.
Modelled from the spec: the base class owns the boolean in-drift/in-warning
status pair (§3 "Change Detector instance"), `reset()` "clears all state"
(§4.1 contract), so the base reset sets both flags to `False`; `estimation`
is not listed among the fields `HDDM_W.reset` re-assigns, so it is kept. -/
def HDDMW.reset (d : HDDMW) : HDDMW :=
  { core := coreReset d.core
    inCC := false
    inWZ := false
    estimation := d.estimation }

/-- `HDDM_W._detect_mean_increment(sample1, sample2, confidence)`: `False`
when either estimator is uninitialized, otherwise tests
`sample2.EWMA - sample1.EWMA > sqrt(ibc_sum · ln(1/confidence) / 2)`. -/
def detectMeanIncrement (s1 s2 : SampleInfo) (conf : ℝ) : Bool :=
  if s1.ewma < 0 ∨ s2.ewma < 0 then false
  else if s2.ewma - s1.ewma >
      Real.sqrt ((s1.ibcSum + s2.ibcSum) * Real.log (1 / conf) / 2) then true
  else false

/-- `HDDM_W._monitor_mean_incr(confidence)`. -/
def monitorMeanIncr (c : HDDMWCore) (conf : ℝ) : Bool :=
  detectMeanIncrement c.s1i c.s2i conf

/-- `HDDM_W._monitor_mean_decr(confidence)` (note the swapped sample order
in the source). -/
def monitorMeanDecr (c : HDDMWCore) (conf : ℝ) : Bool :=
  detectMeanIncrement c.s2d c.s1d conf

/-- `HDDM_W._update_incr_statistics(value, confidence)` (the local `bound`
is written out in both places it is read). -/
def updateIncrStatistics (c : HDDMWCore) (v conf : ℝ) : HDDMWCore :=
  if ltCut (c.total.ewma + Real.sqrt (c.total.ibcSum * Real.log (1 / conf) / 2))
      c.incrCut then
    { c with
      incrCut := some (c.total.ewma +
        Real.sqrt (c.total.ibcSum * Real.log (1 / conf) / 2))
      s1i := c.total
      s2i := SampleInfo.fresh
      delay := 0 }
  else
    { c with
      delay := c.delay + 1
      s2i := foldSample c.lam c.s2i v }

/-- `HDDM_W._update_decr_statistics(value, confidence)` (the local `epsilon`
is written out in both places it is read). -/
def updateDecrStatistics (c : HDDMWCore) (v conf : ℝ) : HDDMWCore :=
  if gtCut (c.total.ewma - Real.sqrt (c.total.ibcSum * Real.log (1 / conf) / 2))
      c.decrCut then
    { c with
      decrCut := some (c.total.ewma -
        Real.sqrt (c.total.ibcSum * Real.log (1 / conf) / 2))
      s1d := c.total
      s2d := SampleInfo.fresh }
  else
    { c with s2d := foldSample c.lam c.s2d v }

/-- Lines 107-119 of `HDDM_W.update`: bump `width`, fold the value into
`total`, then run `_update_incr_statistics(value, drift_confidence)`. -/
def incrPhase (c : HDDMWCore) (v : ℝ) : HDDMWCore :=
  updateIncrStatistics
    { c with width := c.width + 1, total := foldSample c.lam c.total v }
    v c.driftConf

/-- Lines 120-129 of `HDDM_W.update`: the increase-direction decision.
Drift at `drift_confidence` resets the accumulators and yields
`(True, False)`; otherwise warning at `warning_confidence` yields
`(False, True)`; otherwise `(False, False)`. -/
def incrDecision (c2 : HDDMWCore) : HDDMWCore × Bool × Bool :=
  if monitorMeanIncr c2 c2.driftConf then (coreReset c2, true, false)
  else if monitorMeanIncr c2 c2.warnConf then (c2, false, true)
  else (c2, false, false)

/-- The increase-direction flags computed by one `update(value)` call
(the value of the `(self._in_concept_change, self._in_warning_zone)` pair
right after line 129 of the source). -/
def incrFlagsOf (c : HDDMWCore) (v : ℝ) : Bool × Bool :=
  (incrDecision (incrPhase c v)).2

/-- State after line 131 of `HDDM_W.update`: the decrease statistics are
updated (with `drift_confidence`) on whatever state the increase-direction
decision left behind. -/
def decrPhase (c : HDDMWCore) (v : ℝ) : HDDMWCore :=
  updateDecrStatistics (incrDecision (incrPhase c v)).1 v
    (incrDecision (incrPhase c v)).1.driftConf

/-- Whether the two-sided decrease test of lines 132-133 fires. -/
def decrFires (c : HDDMWCore) (v : ℝ) : Bool :=
  (decrPhase c v).twoSided && monitorMeanDecr (decrPhase c v) (decrPhase c v).driftConf

/-- Lines 132-133 of `HDDM_W.update`: a decrease-side drift triggers
`reset()` — which, through the base class, also clears the status pair. -/
def decrResetCheck (c4 : HDDMWCore) (flags : Bool × Bool) : HDDMWCore × Bool × Bool :=
  if c4.twoSided && monitorMeanDecr c4 c4.driftConf then (coreReset c4, false, false)
  else (c4, flags)

/-- The accumulator/flag part of `HDDM_W.update(value)`; the returned pair is
the final `(self._in_concept_change, self._in_warning_zone)`. -/
def coreUpdate (c : HDDMWCore) (v : ℝ) : HDDMWCore × Bool × Bool :=
  decrResetCheck (decrPhase c v) (incrFlagsOf c v)

/-- `HDDM_W.update(value)`: returns the new detector state together with the
`(in_drift, in_warning)` pair.  The final assignment
`self.estimation = self.total.EWMA_estimator` (line 134) reads the total
estimator as it stands after any reset. -/
def HDDMW.update (d : HDDMW) (v : ℝ) : HDDMW × Bool × Bool :=
  (⟨(coreUpdate d.core v).1, (coreUpdate d.core v).2.1, (coreUpdate d.core v).2.2,
    some (coreUpdate d.core v).1.total.ewma⟩, (coreUpdate d.core v).2)

/-- Feed `k` copies of the value `v` to the detector, front first. -/
def feedConst (d : HDDMW) (v : ℝ) : ℕ → HDDMW
  | 0 => d
  | k + 1 => feedConst ((d.update v).1) v k

/-- A fresh detector with the same constructor parameters as `d`. -/
def freshOf (d : HDDMW) : HDDMW :=
  HDDMW.init d.core.driftConf d.core.warnConf d.core.lam d.core.twoSided

/-- Invariant maintained while a detector is fed a constant value `b`: every
EWMA estimator either equals `b` or is still the uninitialized sentinel
`-1`. -/
def constInv (c : HDDMWCore) (b : ℝ) : Prop :=
  (c.total.ewma = b ∨ c.total.ewma = -1) ∧
  (c.s1i.ewma = b ∨ c.s1i.ewma = -1) ∧
  (c.s2i.ewma = b ∨ c.s2i.ewma = -1) ∧
  (c.s1d.ewma = b ∨ c.s1d.ewma = -1) ∧
  (c.s2d.ewma = b ∨ c.s2d.ewma = -1)

/-- A concrete detector state (`λ = 0`, both confidences `1/2`, one-sided)
poised so that the next `update(1)` raises a drift and hence a
drift-triggered `reset()`. -/
def cexCore : HDDMWCore :=
  { total := ⟨1/2, 0⟩
    s1d := SampleInfo.fresh
    s1i := ⟨0, 0⟩
    s2d := SampleInfo.fresh
    s2i := ⟨1, 0⟩
    incrCut := some 0
    decrCut := some 1
    width := 5
    delay := 2
    driftConf := 1/2
    warnConf := 1/2
    lam := 0
    twoSided := false }

/-- The concrete detector around `cexCore`. -/
def cexD : HDDMW := ⟨cexCore, false, false, none⟩

/-- A fresh detector whose `estimation` has been set (as one `update` call
would do) — used to compare an explicit `reset()` against a fresh
construction at `k = 0`. -/
def cexE : HDDMW :=
  { HDDMW.init (1/2) (1/2) 0 false with estimation := some 0 }

/-- A concrete two-sided detector state (`λ = 0`) poised so that the next
`update(1)` raises an increase-side warning and simultaneously a
decrease-side drift. -/
def cex7Core : HDDMWCore :=
  { total := ⟨1/2, 0⟩
    s1d := ⟨3, 0⟩
    s1i := ⟨0, 1⟩
    s2d := ⟨0, 0⟩
    s2i := ⟨3/2, 1⟩
    incrCut := some 0
    decrCut := some 1
    width := 0
    delay := 0
    driftConf := Real.exp (-4)
    warnConf := Real.exp (-1)
    lam := 0
    twoSided := true }

/-- The concrete detector around `cex7Core`. -/
def cex7D : HDDMW := ⟨cex7Core, false, false, none⟩

/-- A concrete `SampleInfo` pair on which the guard of
`_detect_mean_increment` (uninitialized estimator) disagrees with the bare
bound formula. -/
def cexS1 : SampleInfo := ⟨-1, 0⟩

/-- Companion to `cexS1`. -/
def cexS2 : SampleInfo := ⟨2, 0⟩

/-- `d` with two-sided testing turned off (used to state the behaviour of the
increase-direction tests in isolation). -/
def oneSided (c : HDDMWCore) : HDDMWCore := { c with twoSided := false }

/-- The state `cexCore` reaches after the total-update and
increase-statistics phases of `update(1)`. -/
def cexC2 : HDDMWCore :=
  { cexCore with total := ⟨1/2, 0⟩, s2i := ⟨1, 0⟩, width := 6, delay := 3 }

/-- The full detector state after `cexD.update 1` (a drift fired, `reset()`
ran, and the decrease statistics then absorbed the triggering sample). -/
def cexA : HDDMW :=
  ⟨{ total := SampleInfo.fresh
     s1d := SampleInfo.fresh
     s1i := SampleInfo.fresh
     s2d := ⟨1, 1⟩
     s2i := SampleInfo.fresh
     incrCut := none
     decrCut := none
     width := 0
     delay := 0
     driftConf := 1/2
     warnConf := 1/2
     lam := 0
     twoSided := false }, true, false, some (-1)⟩

/-- The state `cexA.core` reaches after the total-update and
increase-statistics phases of `update(0)`. -/
def cexA2 : HDDMWCore :=
  { cexA.core with
    total := ⟨0, 1⟩
    s1i := ⟨0, 1⟩
    s2i := SampleInfo.fresh
    incrCut := some (Real.sqrt (Real.log 2 / 2))
    width := 1
    delay := 0 }

/-- Counterpart of `cexA2` for the freshly constructed detector. -/
def cexF2 : HDDMWCore := { cexA2 with s2d := SampleInfo.fresh }

/-- The state `cex7Core` reaches after the total-update and
increase-statistics phases of `update(1)`. -/
def cex7C2 : HDDMWCore :=
  { cex7Core with total := ⟨1/2, 0⟩, s2i := ⟨3/2, 1⟩, width := 1, delay := 1 }

/-! ## `creme.tree.hoeffding_tree_regressor.HoeffdingTreeRegressor` -/

/-- A split test, exposing `get_atts_test_depends_on()` (the attribute ids it
examines).  Its branch-routing behaviour is owned by the external `_nodes`
module and is not needed by the split-decision procedure. -/
structure SplitTest where
  atts : List ℕ
  deriving DecidableEq

/-- `SplitSuggestion`: a candidate split as produced by the (external)
attribute observers — its merit, its test (`None` for the null split), and
the per-branch post-split statistics (`resulting_stats_from_split(i)`;
`num_splits()` is their number).  The statistics payload `S` is opaque. -/
structure SplitSuggestion (S : Type) where
  merit : ℝ
  splitTest : Option SplitTest
  childStats : List S

/-- The leaf-local state `_attempt_to_split` reads and writes: sufficient
statistics, depth, active flag, and the set of attributes disabled by
`disable_attribute`. -/
structure LeafData (S : Type) where
  stats : S
  depth : ℕ
  active : Bool
  disabled : List ℕ

/-- A tree node: learning node (leaf) or split node with ordered children. -/
inductive RNode (S : Type) where
  | leaf (ld : LeafData S)
  | split (test : SplitTest) (stats : S) (depth : ℕ) (children : List (RNode S))

/-- The tree state `_attempt_to_split` touches: root (`None` before the
first `learn_one`) and the three global node counters. -/
structure HTR (S : Type) where
  root : Option (RNode S)
  nActiveLeaves : ℤ
  nInactiveLeaves : ℤ
  nDecisionNodes : ℤ

/-- The configuration fields `_attempt_to_split` reads. -/
structure HTRConfig where
  splitConfidence : ℝ
  tieThreshold : ℝ
  removePoorAtts : Bool

/-- Node lookup along a child-index path. -/
def RNode.nodeAt {S : Type} : RNode S → List ℕ → Option (RNode S)
  | n, [] => some n
  | .leaf _, _ :: _ => none
  | .split _ _ _ ch, i :: p =>
      match ch.get? i with
      | some c => c.nodeAt p
      | none => none

/-- Replace the node at a child-index path (the functional rendering of
`parent.set_child(parent_branch, node)` / assignment to `_tree_root`;
`parent = None` corresponds to the empty path). -/
def RNode.replaceAt {S : Type} : RNode S → List ℕ → RNode S → RNode S
  | _, [], n' => n'
  | .leaf ld, _ :: _, _ => .leaf ld
  | .split t s d ch, i :: p, n' =>
      match ch.get? i with
      | some c => .split t s d (ch.set i (c.replaceAt p n'))
      | none => .split t s d ch

/-- Modelled from the spec: `DecisionTree._hoeffding_bound` lives in
`_base_tree` (not among the provided sources); §4.2 step 3 gives
`ε = sqrt(R² · ln(1/splitConfidence) / (2·n))` with `R` the criterion's
range of merit and `n` the leaf's total observed weight. -/
def hoeffdingBound (rangeMerit conf n : ℝ) : ℝ :=
  Real.sqrt (rangeMerit ^ 2 * Real.log (1 / conf) / (2 * n))

/-- `best_split_suggestions.sort(key=attrgetter('merit'))`: a stable
ascending sort by merit. -/
def sortSuggestions {S : Type} (l : List (SplitSuggestion S)) :
    List (SplitSuggestion S) :=
  l.insertionSort (fun a b => a.merit ≤ b.merit)

/-- The `should_split` flag of `_attempt_to_split` (lines 276-288): with
fewer than two candidates, split iff at least one exists; otherwise compare
the two top-merit candidates (`[-1]` and `[-2]` of the sorted list) with the
Hoeffding bound and the tie threshold. -/
def shouldSplitOf {S : Type} (cfg : HTRConfig) (cands : List (SplitSuggestion S))
    (rangeMerit n : ℝ) : Bool :=
  match (sortSuggestions cands).reverse with
  | [] => false
  | [_] => true
  | b :: s :: _ =>
      if 0 < b.merit ∧
          (s.merit / b.merit < 1 - hoeffdingBound rangeMerit cfg.splitConfidence n
            ∨ hoeffdingBound rangeMerit cfg.splitConfidence n < cfg.tieThreshold)
      then true else false

/-- The body of the poor-attribute loop (lines 294-301): a candidate
contributes its attribute when it has a (non-null) test over exactly one
attribute and its merit ratio falls more than `2ε` below the
second-best-to-best ratio. -/
def poorAttTest {S : Type} (bMerit sMerit hb : ℝ) (sug : SplitSuggestion S) : Option ℕ :=
  match sug.splitTest with
  | some tst =>
      match tst.atts with
      | [a] => if sug.merit / bMerit < sMerit / bMerit - 2 * hb then some a else none
      | _ => none
  | none => none

/-- The poor-attribute set of `_attempt_to_split` (lines 289-303): when
`remove_poor_atts` is set and at least two candidates exist, every attribute
tested alone by a candidate whose merit ratio falls more than `2ε` below the
second-best-to-best ratio (Python collects them into a `set`, hence the
`dedup`). -/
def poorAttsOf {S : Type} (cfg : HTRConfig) (cands : List (SplitSuggestion S))
    (rangeMerit n : ℝ) : List ℕ :=
  match (sortSuggestions cands).reverse with
  | b :: s :: _ =>
      if cfg.removePoorAtts then
        ((sortSuggestions cands).filterMap
          (poorAttTest b.merit s.merit (hoeffdingBound rangeMerit cfg.splitConfidence n))).dedup
      else []
  | _ => []

/-- Modelled from the spec: `DecisionTree._deactivate_leaf` lives in
`_base_tree` (not among the provided sources); per §4.2 step 5 and §4.5 it
replaces the leaf with an inactive leaf holding the same statistics (a fresh
node, so no attribute observers), decrements the active-leaf counter and
increments the inactive-leaf counter. -/
def deactivateLeaf {S : Type} (t : HTR S) (ld : LeafData S) (path : List ℕ) : HTR S :=
  { t with
    root := t.root.map (·.replaceAt path (.leaf ⟨ld.stats, ld.depth, false, []⟩))
    nActiveLeaves := t.nActiveLeaves - 1
    nInactiveLeaves := t.nInactiveLeaves + 1 }

/-- Lines 309-321 of `_attempt_to_split`: replace the leaf by a split node
carrying the winning test and the leaf's statistics/depth, attach one fresh
active child leaf per branch seeded with `resulting_stats_from_split(i)`,
and adjust the counters (`-1 + num_splits` active leaves, `+1` decision
node). -/
def executeSplit {S : Type} (t : HTR S) (ld : LeafData S) (path : List ℕ)
    (best : SplitSuggestion S) (tst : SplitTest) : HTR S :=
  { t with
    root := t.root.map (·.replaceAt path
      (.split tst ld.stats ld.depth
        (best.childStats.map (fun st => .leaf ⟨st, ld.depth + 1, true, []⟩))))
    nActiveLeaves := t.nActiveLeaves - 1 + best.childStats.length
    nDecisionNodes := t.nDecisionNodes + 1 }

/-- `HoeffdingTreeRegressor._attempt_to_split(node, parent, parent_idx)`.
The split candidates (`node.get_best_split_suggestions`) and the criterion's
`get_range_of_merit(node.stats)` are produced by external collaborators and
enter as the `cands` and `rangeMerit` arguments; `n` is the leaf's
`total_weight`.  With at least two candidates, the poor-attribute block runs
(on the live leaf) whether or not the split was approved; an approved split
then replaces the leaf (dropping that leaf's state), a null-split win
deactivates it.  `node.manage_memory` (the not-approved `elif`) and
`_enforce_size_limit` touch only external per-node/memory state and have no
effect on the modelled fields. -/
def attemptToSplit {S : Type} (cfg : HTRConfig) (t : HTR S) (ld : LeafData S)
    (path : List ℕ) (cands : List (SplitSuggestion S)) (rangeMerit n : ℝ) : HTR S :=
  match (sortSuggestions cands).reverse with
  | [] => t
  | [b] =>
      match b.splitTest with
      | none => deactivateLeaf t ld path
      | some tst => executeSplit t ld path b tst
  | b :: _ :: _ =>
      if shouldSplitOf cfg cands rangeMerit n then
        match b.splitTest with
        | none => deactivateLeaf t ld path
        | some tst => executeSplit t ld path b tst
      else
        { t with
          root := t.root.map (·.replaceAt path
            (.leaf { ld with disabled := ld.disabled ++ poorAttsOf cfg cands rangeMerit n })) }

/-- Configuration used by the concrete split-decision scenarios:
`split_confidence = 1` (so the Hoeffding bound is `0`), `tie_threshold = 0`,
`remove_poor_atts` on. -/
def cfgP : HTRConfig := ⟨1, 0, true⟩

/-- A single split candidate with merit `0` and a real (non-null) test. -/
def cexSugg : SplitSuggestion Unit := ⟨0, some ⟨[0]⟩, [(), ()]⟩

/-- A one-leaf tree for the concrete split scenarios. -/
def cexLd : LeafData Unit := ⟨(), 0, true, []⟩

/-- The tree around `cexLd`. -/
def cexTree : HTR Unit := ⟨some (.leaf cexLd), 1, 0, 0⟩

/-- Three candidates: a poor single-attribute candidate (merit `1/2` on
attribute 0) and two tied best candidates (merit `1`), so the split is not
approved while the poor attribute is still disabled. -/
def candsP : List (SplitSuggestion Unit) :=
  [⟨1/2, some ⟨[0]⟩, [(), ()]⟩, ⟨1, some ⟨[1]⟩, [(), ()]⟩, ⟨1, some ⟨[2]⟩, [(), ()]⟩]

/-- A single approvable candidate (positive merit, real test). -/
def candsW : List (SplitSuggestion Unit) := [⟨1, some ⟨[0]⟩, [(), ()]⟩]

/-! ## Prediction in the adaptive tree classifiers and the regressor -/

/-- One result of `filter_instance_to_leaves` (a `_nodes.FoundNode`, external
code entering as data) at the granularity `predict_proba_one` consumes it:
the reached node's class distribution (`none` when the descent ended with no
matching branch), the parent node's distribution (the fallback), and the
`parent_branch` tag — the special value `-999` marks the root of an
alternate subtree.  Distributions are insertion-ordered dicts rendered as
association lists. -/
structure FoundLeaf (C : Type) where
  node : Option (List (C × ℝ))
  parent : List (C × ℝ)
  parentBranch : ℤ

/-- `leaf_node = fn.node; if leaf_node is None: leaf_node = fn.parent`,
followed by the leaf's `leaf_prediction`. -/
def FoundLeaf.dist {C : Type} (fn : FoundLeaf C) : List (C × ℝ) :=
  fn.node.getD fn.parent

/-- Modelled from the spec: `add_dict_values` (in
`river/utils/skmultiflow_utils.py`, not among the provided sources) sums two
class-weight distributions key-wise (§4.4: results "are combined by summing
each leaf's class-weight distribution"). -/
def addDictValues {C : Type} [DecidableEq C] (a b : List (C × ℝ)) : List (C × ℝ) :=
  a.map (fun kv => (kv.1, kv.2 + ((b.lookup kv.1).getD 0)))
    ++ b.filter (fun kv => (a.lookup kv.1).isNone)

/-- Modelled from the spec: `normalize_values_in_dict` (same module, not
among the provided sources) divides every weight by the total so the sum
becomes a distribution (§4.4: "and normalized"). -/
def normalizeValuesInDict {C : Type} (d : List (C × ℝ)) : List (C × ℝ) :=
  d.map (fun kv => (kv.1, kv.2 / (d.map (·.2)).sum))

/-- river `HoeffdingAdaptiveTreeClassifier.predict_proba_one(x)` (lines
175-193): start from a zero weight per observed class; when a root exists,
fold over the found nodes, skipping every result tagged `-999`, summing the
others' distributions, and normalize; with no root, return the initial
dict unchanged (for a never-trained tree the class set is empty). -/
def predictProbaOne {C : Type} [DecidableEq C] (classes : List C)
    (rootPresent : Bool) (found : List (FoundLeaf C)) : List (C × ℝ) :=
  if rootPresent then
    normalizeValuesInDict
      (found.foldl
        (fun proba fn =>
          if fn.parentBranch != -999 then addDictValues proba fn.dist else proba)
        (classes.map (fun c => (c, 0.0))))
  else
    classes.map (fun c => (c, 0.0))

/-- Modelled from the spec: `creme.utils.math.softmax` is not among the
provided sources; §4.4 describes the final combination step as a
normalization of the summed distributions, so it is modelled as that
normalization. -/
def softmaxSpec {C : Type} (d : List (C × ℝ)) : List (C × ℝ) :=
  normalizeValuesInDict d

/-- creme `HoeffdingAdaptiveTreeClassifier.predict_proba_one(x)` (lines
148-167): same exclusion/summing loop but starting from the empty dict, and
the final call applies `softmax`. -/
def cremePredictProbaOne {C : Type} [DecidableEq C] (rootPresent : Bool)
    (found : List (FoundLeaf C)) : List (C × ℝ) :=
  softmaxSpec
    (if rootPresent then
      found.foldl
        (fun proba fn =>
          if fn.parentBranch != -999 then addDictValues proba fn.dist else proba)
        []
    else [])

/-- creme `HoeffdingTreeRegressor.predict_one(x)` (lines 222-245).  The
single-path descent `filter_instance_to_leaf` and the leaf predictors live
in `_nodes` (not among the provided sources) and enter as the
`filt`/`leafPred` arguments; `statsIdx st i` renders the regression
statistics dict access `node.stats[i]`.  A `found.node` of `None` would make
`node.is_leaf()` raise (`AttributeError`), rendered as `.error`; an empty
tree returns `0.` before any descent. -/
def predictOneR {S X : Type} (filt : RNode S → X → Option (RNode S))
    (leafPred : LeafData S → X → ℝ) (statsIdx : S → ℕ → ℝ)
    (t : HTR S) (x : X) : Except String ℝ :=
  match t.root with
  | none => .ok 0
  | some r =>
      match filt r x with
      | none => .error "AttributeError"
      | some (.leaf ld) => .ok (leafPred ld x)
      | some (.split _ st _ _) => .ok (statsIdx st 1 / statsIdx st 0)

/-! ## `learn_one` return values -/

/-- The tree-level fields the adaptive classifiers' `learn_one` bodies touch
directly (class set, seen weight, root, active-leaf counter); the node type
`N` and the whole routed descent stay external. -/
structure HATCState (C N : Type) where
  classes : List C
  trainWeight : ℝ
  root : Option N
  nActiveLeaves : ℤ

/-- `self.classes.add(y)`: set insertion. -/
def classInsert {C : Type} [DecidableEq C] (cs : List C) (y : C) : List C :=
  if y ∈ cs then cs else cs ++ [y]

/-- river `HoeffdingAdaptiveTreeClassifier.learn_one` (lines 156-172): add
the class, bump the seen weight, create a root leaf if absent, delegate the
descent/update to the root node (external `_nodes` code, the `rootLearn`
argument; `_estimate_model_size` touches only memory-estimation state
outside this model), and end with `return self`.  The second component is
the Python return value. -/
def riverLearnOne {C N X : Type} [DecidableEq C] (newLeaf : N)
    (rootLearn : N → X → C → ℝ → N) (t : HATCState C N) (x : X) (y : C)
    (w : ℝ) : HATCState C N × Option (HATCState C N) :=
  let t1 := { t with classes := classInsert t.classes y,
                     trainWeight := t.trainWeight + w }
  let t2 := match t1.root with
    | none => { t1 with root := some newLeaf, nActiveLeaves := 1 }
    | some _ => t1
  let t3 := { t2 with root := t2.root.map (fun r => rootLearn r x y w) }
  (t3, some t3)

/-- creme `HoeffdingAdaptiveTreeClassifier.learn_one` (lines 133-140): the
same root-creation and delegated descent, but the body contains no `return`
statement, so the Python call evaluates to `None`. -/
def cremeAdaptiveLearnOne {C N X : Type} (newLeaf : N)
    (rootLearn : N → X → C → ℝ → N) (t : HATCState C N) (x : X) (y : C)
    (w : ℝ) : HATCState C N × Option (HATCState C N) :=
  let t2 := match t.root with
    | none => { t with root := some newLeaf, nActiveLeaves := 1 }
    | some _ => t
  let t3 := { t2 with root := t2.root.map (fun r => rootLearn r x y w) }
  (t3, none)

/-- creme `HoeffdingTreeRegressor.learn_one` (lines 170-220): root creation
when absent, then the routed update / growth logic (descent, leaf update,
grace-period split attempts — delegated to the `step` argument as it leans
on the external `_nodes` collaborators); the body contains no `return`
statement, so the Python call evaluates to `None`. -/
def cremeRegressorLearnOne {S X : Type} (newLd : LeafData S)
    (step : HTR S → X → ℝ → ℝ → HTR S) (t : HTR S) (x : X) (y w : ℝ) :
    HTR S × Option (HTR S) :=
  let t1 := match t.root with
    | none => { t with root := some (.leaf newLd), nActiveLeaves := 1 }
    | some _ => t
  (step t1 x y w, none)

/-- A fresh adaptive-classifier state. -/
def cexHatc : HATCState ℕ Unit := ⟨[], 0, none, 0⟩

/-! ## `creme.multioutput.chain` -/

/-- Insertion-ordered dict as an association list. -/
abbrev Dict (K V : Type) : Type := List (K × V)

/-- Python dict assignment `d[k] = v`: overwrite in place when the key
exists (keeping its position), otherwise append. -/
def dictSet {K V : Type} [DecidableEq K] (d : Dict K V) (k : K) (v : V) : Dict K V :=
  if (List.lookup k d).isSome then
    d.map (fun kv => if kv.1 = k then (k, v) else kv)
  else d ++ [(k, v)]

/-- `d[k]` with a default (the chains' `y[o]`/`y_pred[True]` accesses). -/
def dictGetD {K V : Type} [DecidableEq K] (d : Dict K V) (k : K) (v0 : V) : V :=
  (List.lookup k d).getD v0

/-- `list(d.keys())`. -/
def dictKeys {K V : Type} (d : Dict K V) : List K := d.map (·.1)

/-- A heap of dict objects: `copy.copy` allocates a new slot, writes go
through an explicit slot index so that aliasing (what the caller's `x`
still holds afterwards) is observable. -/
abbrev Heap (K V : Type) : Type := List (Dict K V)

/-- Read a heap slot. -/
def heapRead {K V : Type} (h : Heap K V) (r : ℕ) : Dict K V := h.getD r []

/-- The base-model interface `RegressorChain` consumes. -/
structure RegModelAPI (K V M : Type) where
  predictOne : M → Dict K V → V
  learnOne : M → Dict K V → V → M

/-- One chain-loop iteration: update the per-output state and write the
(single) copied feature dict at heap slot `cr`. -/
def chainStep {σ α γ : Type} (cr : ℕ) (F : σ × List α → γ → σ)
    (G : σ × List α → γ → α) (acc : σ × List α) (o : γ) : σ × List α :=
  (F acc o, acc.2.set cr (G acc o))

/-- `RegressorChain.learn_one(x, y)` (lines 194-213): infer the order from
`y` on first call (instantiating one copy of the base model per output),
copy `x`, then per output predict (before learning, to avoid leakage),
learn, and store the prediction under the output's key *in the copy*.
Returns (models, order, heap). -/
def regChainLearnOne {K V M : Type} [DecidableEq K] (api : RegModelAPI K V M)
    (base : M) (defaultV : V) (models : Dict K M) (order : Option (List K))
    (heap : Heap K V) (xr : ℕ) (y : Dict K V) :
    Dict K M × List K × Heap K V :=
  let ord := match order with
    | none => dictKeys y
    | some o => o
  let models0 := match order with
    | none => ord.foldl (fun m o => dictSet m o base) models
    | some _ => models
  let cr := heap.length
  let heap0 := heap ++ [heapRead heap xr]
  let st := ord.foldl
    (chainStep cr
      (fun acc o =>
        dictSet acc.1 o (api.learnOne (dictGetD acc.1 o base)
          (heapRead acc.2 cr) (dictGetD y o defaultV)))
      (fun acc o =>
        dictSet (heapRead acc.2 cr) o
          (api.predictOne (dictGetD acc.1 o base) (heapRead acc.2 cr))))
    (models0, heap0)
  (st.1, ord, st.2)

/-- The base-model interface `ClassifierChain` consumes: `_multiclass`, a
per-class probability dict over labels `L`, and learning from a label `B`.
Feature dicts hold values of type `W`; `embV` injects a probability into a
feature value (Python needs no injection). -/
structure ClfModelAPI (K L V B W M : Type) where
  multiclass : Bool
  predictProbaOne : M → Dict K W → Dict L V
  learnOne : M → Dict K W → B → M

/-- `ClassifierChain.learn_one(x, y)` (lines 95-118): like the regressor
chain, except the stored features are, per model, either the probability of
`True` (binary) or one feature per label of the predicted distribution,
under the key `f'{o}_{label}'` (`comboL`). -/
def clfChainLearnOne {K L V B W M : Type} [DecidableEq K]
    (api : ClfModelAPI K L V B W M) (base : M) (comboL : K → L → K)
    (embV : V → W) (trueL : L) (defaultV : V) (defaultB : B)
    (models : Dict K M) (order : Option (List K)) (heap : Heap K W) (xr : ℕ)
    (y : Dict K B) : Dict K M × List K × Heap K W :=
  let ord := match order with
    | none => dictKeys y
    | some o => o
  let models0 := match order with
    | none => ord.foldl (fun m o => dictSet m o base) models
    | some _ => models
  let cr := heap.length
  let heap0 := heap ++ [heapRead heap xr]
  let st := ord.foldl
    (chainStep cr
      (fun acc o =>
        dictSet acc.1 o (api.learnOne (dictGetD acc.1 o base)
          (heapRead acc.2 cr) (dictGetD y o defaultB)))
      (fun acc o =>
        if api.multiclass then
          (api.predictProbaOne (dictGetD acc.1 o base) (heapRead acc.2 cr)).foldl
            (fun wa kv => dictSet wa (comboL o kv.1) (embV kv.2))
            (heapRead acc.2 cr)
        else
          dictSet (heapRead acc.2 cr) o
            (embV (dictGetD (api.predictProbaOne (dictGetD acc.1 o base)
              (heapRead acc.2 cr)) trueL defaultV))))
    (models0, heap0)
  (st.1, ord, st.2)

/-- `ClassifierChain.predict_proba_one(x)` (lines 120-140): copy `x`, return
the empty dict when no order is known; otherwise predict per output,
storing features in the copy — in the multiclass branch the source iterates
`y_pred.items()` (the *outer* dict of per-output distributions), so the
inserted features are keyed by `comboK` over output keys and hold whole
distributions (`embD`). -/
def clfChainPredictProbaOne {K L V B W M : Type} [DecidableEq K]
    (api : ClfModelAPI K L V B W M) (base : M) (comboK : K → K → K)
    (embD : Dict L V → W) (embV : V → W) (trueL : L) (defaultV : V)
    (defaultD : Dict L V) (models : Dict K M) (order : Option (List K))
    (heap : Heap K W) (xr : ℕ) : Dict K (Dict L V) × Heap K W :=
  let cr := heap.length
  let heap0 := heap ++ [heapRead heap xr]
  match order with
  | none => ([], heap0)
  | some ord =>
      let st := ord.foldl
        (chainStep cr
          (fun acc o =>
            dictSet acc.1 o (api.predictProbaOne (dictGetD models o base)
              (heapRead acc.2 cr)))
          (fun acc o =>
            let ypAll := dictSet acc.1 o
              (api.predictProbaOne (dictGetD models o base) (heapRead acc.2 cr))
            if api.multiclass then
              ypAll.foldl (fun wa kv => dictSet wa (comboK o kv.1) (embD kv.2))
                (heapRead acc.2 cr)
            else
              dictSet (heapRead acc.2 cr) o
                (embV (dictGetD (dictGetD ypAll o defaultD) trueL defaultV))))
        ([], heap0)
      (st.1, st.2)

/-- A concrete regressor base model for the chain scenarios. -/
def apiRW : RegModelAPI ℕ ℕ Unit := ⟨fun _ _ => 7, fun m _ _ => m⟩

/-- A concrete binary classifier base model for the chain scenarios. -/
def apiCW : ClfModelAPI ℕ ℕ ℕ ℕ ℕ Unit := ⟨false, fun _ _ => [(0, 1)], fun m _ _ => m⟩

/-- A concrete one-slot heap holding the caller's feature dict. -/
def heapOne : Heap ℕ ℕ := [[(5, 2)]]

end River

namespace River

/-! ## Helper lemmas for the detector -/

theorem foldSample_ewma (lam b : ℝ) (s : SampleInfo)
    (h : s.ewma = b ∨ s.ewma = -1) : (foldSample lam s b).ewma = b := by
  unfold foldSample
  rcases h with h | h
  · by_cases hb : s.ewma < 0
    · simp [hb, h.symm]
    · simp [hb]
      rw [h]
      ring
  · have : s.ewma < 0 := by rw [h]; norm_num
    simp [this]

theorem detect_no_fire (b conf : ℝ) (s1 s2 : SampleInfo)
    (h1 : s1.ewma = b ∨ s1.ewma = -1) (h2 : s2.ewma = b ∨ s2.ewma = -1) :
    detectMeanIncrement s1 s2 conf = false := by
  unfold detectMeanIncrement
  rcases h1 with h1 | h1
  · rcases h2 with h2 | h2
    · by_cases hb : b < 0
      · rw [if_pos (Or.inl (h1 ▸ hb))]
      · rw [if_neg (by push_neg; constructor <;> [rw [h1]; rw [h2]] <;> linarith)]
        rw [if_neg (by rw [h1, h2, sub_self]; exact not_lt.mpr (Real.sqrt_nonneg _))]
    · rw [if_pos (Or.inr (by rw [h2]; norm_num))]
  · rw [if_pos (Or.inl (by rw [h1]; norm_num))]

theorem constInv_incrPhase (c : HDDMWCore) (b : ℝ) (h : constInv c b) :
    constInv (incrPhase c b) b := by
  obtain ⟨htot, hs1i, hs2i, hs1d, hs2d⟩ := h
  have hfold := foldSample_ewma c.lam b c.total htot
  unfold incrPhase updateIncrStatistics
  split
  · exact ⟨Or.inl hfold, Or.inl hfold, Or.inr rfl, hs1d, hs2d⟩
  · exact ⟨Or.inl hfold, hs1i, Or.inl (foldSample_ewma c.lam b c.s2i hs2i),
      hs1d, hs2d⟩

theorem constInv_updateDecr (c : HDDMWCore) (b conf : ℝ) (h : constInv c b) :
    constInv (updateDecrStatistics c b conf) b := by
  obtain ⟨i1, i2, i3, i4, i5⟩ := h
  unfold updateDecrStatistics
  split
  · exact ⟨i1, i2, i3, i1, Or.inr rfl⟩
  · exact ⟨i1, i2, i3, i4, Or.inl (foldSample_ewma _ b _ i5)⟩

theorem incrDecision_no_fire (c2 : HDDMWCore) (b : ℝ) (h : constInv c2 b) :
    incrDecision c2 = (c2, false, false) := by
  have hm : ∀ conf, monitorMeanIncr c2 conf = false := fun conf =>
    detect_no_fire b conf _ _ h.2.1 h.2.2.1
  unfold incrDecision
  rw [hm, hm]
  simp

theorem constInv_step (c : HDDMWCore) (b : ℝ) (h : constInv c b) :
    constInv (coreUpdate c b).1 b ∧ (coreUpdate c b).2 = (false, false) := by
  have h2 : constInv (incrPhase c b) b := constInv_incrPhase c b h
  have hdec := incrDecision_no_fire _ b h2
  have h4 : constInv (decrPhase c b) b := by
    unfold decrPhase
    rw [hdec]
    exact constInv_updateDecr _ b _ h2
  have hmond : monitorMeanDecr (decrPhase c b) (decrPhase c b).driftConf = false :=
    detect_no_fire b _ _ _ h4.2.2.2.2 h4.2.2.2.1
  unfold coreUpdate decrResetCheck incrFlagsOf
  rw [hmond, hdec]
  simp [h4]

theorem feedConst_no_fire (b : ℝ) (k : ℕ) :
    ∀ d : HDDMW, constInv d.core b → d.inCC = false → d.inWZ = false →
      (feedConst d b k).inCC = false ∧ (feedConst d b k).inWZ = false := by
  induction k with
  | zero => exact fun d _ hc hw => ⟨hc, hw⟩
  | succ k ih =>
      intro d h hc hw
      have hstep := constInv_step d.core b h
      refine ih ((d.update b).1) hstep.1 ?_ ?_
      · show (coreUpdate d.core b).2.1 = false
        rw [hstep.2]
      · show (coreUpdate d.core b).2.2 = false
        rw [hstep.2]

theorem constInv_fresh (d : HDDMW) (b : ℝ) : constInv (freshOf d).core b := by
  simp [freshOf, HDDMW.init, coreInit, constInv, SampleInfo.fresh]

theorem coreReset_eq_init (c : HDDMWCore) :
    coreReset c = coreInit c.driftConf c.warnConf c.lam c.twoSided := rfl

theorem reset_update_eq_fresh_update (d : HDDMW) (v : ℝ) :
    d.reset.update v = (freshOf d).update v := by
  have h : d.reset.core = (freshOf d).core := coreReset_eq_init d.core
  unfold HDDMW.update
  rw [h]

/-- Parameter fields survive `_update_incr_statistics`. -/
theorem updateIncr_params (c : HDDMWCore) (v conf : ℝ) :
    (updateIncrStatistics c v conf).driftConf = c.driftConf ∧
    (updateIncrStatistics c v conf).warnConf = c.warnConf ∧
    (updateIncrStatistics c v conf).twoSided = c.twoSided := by
  unfold updateIncrStatistics
  split <;> exact ⟨rfl, rfl, rfl⟩

/-- Parameter fields survive `_update_decr_statistics`. -/
theorem updateDecr_params (c : HDDMWCore) (v conf : ℝ) :
    (updateDecrStatistics c v conf).driftConf = c.driftConf ∧
    (updateDecrStatistics c v conf).twoSided = c.twoSided := by
  unfold updateDecrStatistics
  split <;> exact ⟨rfl, rfl⟩

/-- Parameter fields survive the increase phase. -/
theorem incrPhase_params (c : HDDMWCore) (v : ℝ) :
    (incrPhase c v).driftConf = c.driftConf ∧
    (incrPhase c v).warnConf = c.warnConf ∧
    (incrPhase c v).twoSided = c.twoSided :=
  updateIncr_params _ v c.driftConf

/-- Parameter fields survive the increase-direction decision. -/
theorem incrDecision_params (c2 : HDDMWCore) :
    (incrDecision c2).1.driftConf = c2.driftConf ∧
    (incrDecision c2).1.twoSided = c2.twoSided := by
  unfold incrDecision
  split
  · exact ⟨rfl, rfl⟩
  · split <;> exact ⟨rfl, rfl⟩

/-- Parameter fields survive the decrease phase. -/
theorem decrPhase_params (c : HDDMWCore) (v : ℝ) :
    (decrPhase c v).driftConf = c.driftConf ∧
    (decrPhase c v).twoSided = c.twoSided := by
  unfold decrPhase
  refine ⟨?_, ?_⟩
  · rw [(updateDecr_params _ _ _).1, (incrDecision_params _).1,
      (incrPhase_params _ _).1]
  · rw [(updateDecr_params _ _ _).2, (incrDecision_params _).2,
      (incrPhase_params _ _).2.2]

/-- When two-sided testing is off, lines 132-133 of `update` do nothing. -/
theorem decrResetCheck_of_not_twoSided (c4 : HDDMWCore) (flags : Bool × Bool)
    (h : c4.twoSided = false) : decrResetCheck c4 flags = (c4, flags) := by
  unfold decrResetCheck
  rw [h]
  simp

/-- After an increase-side drift (and its `reset()`), the remainder of
`update` leaves every accumulator except `s2d` fresh. -/
theorem drift_branch_state (c2 : HDDMWCore) (v : ℝ)
    (hm : monitorMeanIncr c2 c2.driftConf = true) :
    updateDecrStatistics (incrDecision c2).1 v (incrDecision c2).1.driftConf =
      { coreReset c2 with s2d := ⟨v, 1⟩ } := by
  have hdec : incrDecision c2 = (coreReset c2, true, false) := by
    unfold incrDecision; rw [hm]; simp
  rw [hdec]
  show updateDecrStatistics (coreReset c2) v (coreReset c2).driftConf = _
  unfold updateDecrStatistics
  split
  · rename_i hbad
    exact False.elim hbad
  · have hfold : foldSample (coreReset c2).lam (coreReset c2).s2d v = ⟨v, 1⟩ := by
      show foldSample (coreReset c2).lam SampleInfo.fresh v = ⟨v, 1⟩
      unfold foldSample SampleInfo.fresh
      rw [if_pos (by norm_num)]
    rw [hfold]

/-- **C2** (amended): with two-sided testing disabled, one `update` call
returns `inDrift` exactly when the increase monitor fires at
`driftConfidence`; it returns `inWarning` exactly when that stricter test
does not fire but the same monitor fires at `warningConfidence`; a drift
leaves every accumulator other than the decrease-side `sample2` freshly
reset and both cut points at infinity.  The increase monitor fires exactly
when **both estimators are initialized (nonnegative)** and
`sample2.EWMA - sample1.EWMA` exceeds
`sqrt((sample1.varianceProxy + sample2.varianceProxy)·ln(1/confidence)/2)`. -/
theorem hddmw_update_incr_flow (c : HDDMWCore) (f g : Bool) (e : Option ℝ) (v : ℝ) :
    ((HDDMW.update ⟨oneSided c, f, g, e⟩ v).2.1
        = monitorMeanIncr (incrPhase (oneSided c) v) c.driftConf)
    ∧ ((HDDMW.update ⟨oneSided c, f, g, e⟩ v).2.2
        = (!monitorMeanIncr (incrPhase (oneSided c) v) c.driftConf
            && monitorMeanIncr (incrPhase (oneSided c) v) c.warnConf))
    ∧ (monitorMeanIncr (incrPhase (oneSided c) v) c.driftConf = true →
        (HDDMW.update ⟨oneSided c, f, g, e⟩ v).1.core.total = SampleInfo.fresh
        ∧ (HDDMW.update ⟨oneSided c, f, g, e⟩ v).1.core.s1i = SampleInfo.fresh
        ∧ (HDDMW.update ⟨oneSided c, f, g, e⟩ v).1.core.s2i = SampleInfo.fresh
        ∧ (HDDMW.update ⟨oneSided c, f, g, e⟩ v).1.core.s1d = SampleInfo.fresh
        ∧ (HDDMW.update ⟨oneSided c, f, g, e⟩ v).1.core.incrCut = none
        ∧ (HDDMW.update ⟨oneSided c, f, g, e⟩ v).1.core.decrCut = none
        ∧ (HDDMW.update ⟨oneSided c, f, g, e⟩ v).1.core.width = 0
        ∧ (HDDMW.update ⟨oneSided c, f, g, e⟩ v).1.core.delay = 0)
    ∧ (∀ (s1 s2 : SampleInfo) (conf : ℝ),
        detectMeanIncrement s1 s2 conf = true ↔
          0 ≤ s1.ewma ∧ 0 ≤ s2.ewma ∧
          s2.ewma - s1.ewma >
            Real.sqrt ((s1.ibcSum + s2.ibcSum) * Real.log (1 / conf) / 2)) := by
  have hdc : (incrPhase (oneSided c) v).driftConf = c.driftConf :=
    (incrPhase_params _ _).1
  have hwc : (incrPhase (oneSided c) v).warnConf = c.warnConf :=
    (incrPhase_params _ _).2.1
  have hts : (decrPhase (oneSided c) v).twoSided = false :=
    (decrPhase_params _ _).2
  have hcu : coreUpdate (oneSided c) v = (decrPhase (oneSided c) v, incrFlagsOf (oneSided c) v) := by
    unfold coreUpdate decrResetCheck
    rw [hts]
    simp
  refine ⟨?_, ?_, ?_, ?_⟩
  · show (coreUpdate (oneSided c) v).2.1 = _
    rw [hcu]
    unfold incrFlagsOf incrDecision
    rw [hdc]
    by_cases hm : monitorMeanIncr (incrPhase (oneSided c) v) c.driftConf = true
    · rw [if_pos hm, hm]
    · rw [if_neg hm]
      rw [Bool.not_eq_true] at hm
      rw [hm]
      split <;> rfl
  · show (coreUpdate (oneSided c) v).2.2 = _
    rw [hcu]
    unfold incrFlagsOf incrDecision
    rw [hdc, hwc]
    by_cases hm : monitorMeanIncr (incrPhase (oneSided c) v) c.driftConf = true
    · rw [if_pos hm, hm]
      rfl
    · rw [if_neg hm]
      rw [Bool.not_eq_true] at hm
      rw [hm]
      by_cases hw : monitorMeanIncr (incrPhase (oneSided c) v) c.warnConf = true
      · rw [if_pos hw, hw]
        rfl
      · rw [if_neg hw]
        rw [Bool.not_eq_true] at hw
        rw [hw]
        rfl
  · intro hm
    rw [← hdc] at hm
    have hstate : (HDDMW.update ⟨oneSided c, f, g, e⟩ v).1.core =
        { coreReset (incrPhase (oneSided c) v) with s2d := ⟨v, 1⟩ } := by
      show (coreUpdate (oneSided c) v).1 = _
      rw [hcu]
      exact drift_branch_state _ v hm
    rw [hstate]
    exact ⟨rfl, rfl, rfl, rfl, rfl, rfl, rfl, rfl⟩
  · intro s1 s2 conf
    unfold detectMeanIncrement
    by_cases hg : s1.ewma < 0 ∨ s2.ewma < 0
    · rw [if_pos hg]
      constructor
      · intro h; exact absurd h (by simp)
      · rintro ⟨h1, h2, -⟩
        rcases hg with hg | hg <;> linarith
    · rw [if_neg hg]
      push_neg at hg
      by_cases hc : s2.ewma - s1.ewma >
          Real.sqrt ((s1.ibcSum + s2.ibcSum) * Real.log (1 / conf) / 2)
      · rw [if_pos hc]
        exact ⟨fun _ => ⟨hg.1, hg.2, hc⟩, fun _ => rfl⟩
      · rw [if_neg hc]
        exact ⟨fun h => absurd h (by simp), fun h => absurd h.2.2 hc⟩

/-- **C2** (counterexample to the claim as stated): at a state whose
`sample1` estimator is still uninitialized, the bare bound inequality holds
but `_detect_mean_increment` returns `False` — the monitor does not fire
"exactly when" the inequality holds. -/
theorem hddmw_detect_guard_cex :
    detectMeanIncrement cexS1 cexS2 (1/2) = false
    ∧ cexS2.ewma - cexS1.ewma >
        Real.sqrt ((cexS1.ibcSum + cexS2.ibcSum) * Real.log (1 / (1/2)) / 2) := by
  constructor
  · unfold detectMeanIncrement cexS1
    rw [if_pos (Or.inl (by norm_num))]
  · unfold cexS1 cexS2
    norm_num [Real.sqrt_zero]

/-- **C7** (amended): the two-sided decrease test triggers `reset()` on a
decrease-drift, and that reset clears the status pair through the base
class, so `update` returns `(False, False)` whenever the decrease test
fires; otherwise both returned flags are exactly the ones determined by the
increase-direction tests. -/
theorem hddmw_decr_branch (d : HDDMW) (v : ℝ) :
    ((d.update v).2 =
      if decrFires d.core v then (false, false) else incrFlagsOf d.core v)
    ∧ (decrFires d.core v = true →
        (d.update v).1.core.total = SampleInfo.fresh
        ∧ (d.update v).1.core.s1i = SampleInfo.fresh
        ∧ (d.update v).1.core.s2i = SampleInfo.fresh
        ∧ (d.update v).1.core.s1d = SampleInfo.fresh
        ∧ (d.update v).1.core.s2d = SampleInfo.fresh
        ∧ (d.update v).1.core.incrCut = none
        ∧ (d.update v).1.core.decrCut = none
        ∧ (d.update v).1.core.width = 0
        ∧ (d.update v).1.core.delay = 0) := by
  have hcu : coreUpdate d.core v =
      if decrFires d.core v then (coreReset (decrPhase d.core v), false, false)
      else (decrPhase d.core v, incrFlagsOf d.core v) := by
    unfold coreUpdate decrResetCheck decrFires
    rfl
  constructor
  · show (coreUpdate d.core v).2 = _
    rw [hcu]
    by_cases hf : decrFires d.core v = true
    · rw [if_pos hf, if_pos hf]
    · rw [Bool.not_eq_true] at hf
      rw [hf]
      simp
  · intro hf
    have hstate : (d.update v).1.core = coreReset (decrPhase d.core v) := by
      show (coreUpdate d.core v).1 = _
      rw [hcu, if_pos hf]
    rw [hstate]
    exact ⟨rfl, rfl, rfl, rfl, rfl, rfl, rfl, rfl, rfl⟩

/-- **C6** (amended): after an *explicit* `reset()`, feeding any constant
value `b` for `k+1` samples reproduces exactly the state of a freshly
constructed detector (same parameters) fed the same samples; and on a
perfectly constant input a fresh (or freshly reset) detector never raises a
drift or a warning. -/
theorem hddmw_reset_law (d : HDDMW) (b : ℝ) (k : ℕ) :
    feedConst d.reset b (k + 1) = feedConst (freshOf d) b (k + 1)
    ∧ (feedConst (freshOf d) b k).inCC = false
    ∧ (feedConst (freshOf d) b k).inWZ = false := by
  refine ⟨?_, ?_⟩
  · show feedConst (d.reset.update b).1 b k = feedConst ((freshOf d).update b).1 b k
    rw [reset_update_eq_fresh_update]
  · exact feedConst_no_fire b k (freshOf d) (constInv_fresh d b) rfl rfl

/-- **C7** (counterexample to the claim as stated): a state on which one
`update(1)` call makes the increase-direction tests report a warning while
the two-sided decrease test raises a drift; the drift-triggered `reset()`
clears the status pair, so `update` returns `inWarning = False` although
the increase-direction tests determined `inWarning = True`. -/
theorem cex7_log4 : Real.log (1 / Real.exp (-4)) = 4 := by
  rw [one_div, Real.log_inv, Real.log_exp]; norm_num

theorem cex7_log1 : Real.log (1 / Real.exp (-1)) = 1 := by
  rw [one_div, Real.log_inv, Real.log_exp]; norm_num

theorem sqrt_four : Real.sqrt 4 = 2 := by
  rw [show (4:ℝ) = 2^2 by norm_num, Real.sqrt_sq (by norm_num : (0:ℝ) ≤ 2)]

theorem cex7_phase : incrPhase cex7D.core 1 = cex7C2 := by
  show incrPhase cex7Core 1 = cex7C2
  unfold incrPhase updateIncrStatistics cex7Core cex7C2
  norm_num [foldSample, ltCut, cex7_log4, Real.sqrt_zero, cex7Core]

theorem cex7_dec : incrDecision cex7C2 = (cex7C2, false, true) := by
  have hmd : monitorMeanIncr cex7C2 cex7C2.driftConf = false := by
    unfold monitorMeanIncr detectMeanIncrement cex7C2 cex7Core
    norm_num [cex7_log4, sqrt_four]
  have hmw : monitorMeanIncr cex7C2 cex7C2.warnConf = true := by
    unfold monitorMeanIncr detectMeanIncrement cex7C2 cex7Core
    norm_num [cex7_log1, Real.sqrt_one]
  unfold incrDecision
  rw [hmd, hmw]
  simp

theorem cex7_decr : decrPhase cex7D.core 1 = cex7C2 := by
  unfold decrPhase
  rw [cex7_phase, cex7_dec]
  show updateDecrStatistics cex7C2 1 cex7C2.driftConf = cex7C2
  unfold updateDecrStatistics cex7C2 cex7Core
  norm_num [gtCut, cex7_log4, Real.sqrt_zero, foldSample]

theorem cex7_fire : monitorMeanDecr cex7C2 cex7C2.driftConf = true := by
  unfold monitorMeanDecr detectMeanIncrement cex7C2 cex7Core
  norm_num [cex7_log4, Real.sqrt_zero]

theorem cex7_decrFires : decrFires cex7D.core 1 = true := by
  unfold decrFires
  rw [cex7_decr, cex7_fire]
  rw [show cex7C2.twoSided = true from rfl]
  rfl

theorem hddmw_decr_warning_cex :
    incrFlagsOf cex7D.core 1 = (false, true)
    ∧ decrFires cex7D.core 1 = true
    ∧ (cex7D.update 1).2.2 = false := by
  refine ⟨?_, cex7_decrFires, ?_⟩
  · unfold incrFlagsOf
    rw [cex7_phase, cex7_dec]
  · show (coreUpdate cex7D.core 1).2.2 = false
    unfold coreUpdate decrResetCheck
    rw [cex7_decr, cex7_fire, show cex7C2.twoSided = true from rfl]
    simp

theorem cexCore_phase : incrPhase cexD.core 1 = cexC2 := by
  show incrPhase cexCore 1 = cexC2
  unfold incrPhase updateIncrStatistics cexCore cexC2
  norm_num [foldSample, ltCut, Real.sqrt_zero, cexCore]

theorem cexCore_monitor : monitorMeanIncr cexC2 cexC2.driftConf = true := by
  unfold monitorMeanIncr detectMeanIncrement cexC2 cexCore
  norm_num [Real.sqrt_zero]

/-- **C6** (counterexample to the claim as stated): after a *drift-triggered*
`reset()` the remainder of the triggering `update` call folds the current
sample into the decrease-side `sample2` monitor, so feeding one further
sample leaves a state different from a fresh detector fed the same sample
(`sample2_decr.EWMA` is `1` instead of `0`); moreover immediately after an
explicit `reset()` (zero further samples) the `estimation` attribute still
differs from a fresh detector's. -/
theorem hddmw_reset_law_cex :
    (cexD.update 1).1.inCC = true
    ∧ ((cexD.update 1).1.update 0).1.core.s2d.ewma = 1
    ∧ ((freshOf (cexD.update 1).1).update 0).1.core.s2d.ewma = 0
    ∧ cexE.reset.estimation = some 0
    ∧ (freshOf cexE).estimation = none := by
  have hphase1 : incrPhase cexD.core 1 = cexC2 := cexCore_phase
  have hmon : monitorMeanIncr cexC2 cexC2.driftConf = true := cexCore_monitor
  have hcore1 : coreUpdate cexD.core 1 = (cexA.core, true, false) := by
    have hdec1 : incrDecision cexC2 = (coreReset cexC2, true, false) := by
      unfold incrDecision
      rw [hmon]
      simp
    have hdecr1 : decrPhase cexD.core 1 = { coreReset cexC2 with s2d := ⟨1, 1⟩ } := by
      unfold decrPhase
      rw [hphase1]
      exact drift_branch_state cexC2 1 hmon
    unfold coreUpdate
    rw [hdecr1, decrResetCheck_of_not_twoSided _ _ rfl]
    unfold incrFlagsOf
    rw [hphase1, hdec1]
    rfl
  have h1 : cexD.update 1 = (cexA, true, false) := by
    unfold HDDMW.update
    rw [hcore1]
    rfl
  have hmA : ∀ conf, monitorMeanIncr cexA2 conf = false := by
    intro conf
    unfold monitorMeanIncr detectMeanIncrement
    rw [if_pos (Or.inr (show cexA2.s2i.ewma < 0 by
      norm_num [cexA2, cexA, SampleInfo.fresh]))]
  have hdecA : incrDecision cexA2 = (cexA2, false, false) := by
    unfold incrDecision
    rw [hmA, hmA]
    simp
  have hphaseA : incrPhase cexA.core 0 = cexA2 := by
    unfold incrPhase updateIncrStatistics cexA cexA2
    norm_num [foldSample, ltCut, SampleInfo.fresh, cexA]
  have hdecrA : decrPhase cexA.core 0 = cexA2 := by
    unfold decrPhase
    rw [hphaseA, hdecA]
    show updateDecrStatistics cexA2 0 cexA2.driftConf = cexA2
    unfold updateDecrStatistics
    split
    · rename_i hbad
      exact False.elim hbad
    · unfold foldSample cexA2 cexA
      norm_num
  have hsA : ((cexD.update 1).1.update 0).1.core.s2d.ewma = 1 := by
    rw [h1]
    show (coreUpdate cexA.core 0).1.s2d.ewma = 1
    unfold coreUpdate
    rw [hdecrA, decrResetCheck_of_not_twoSided _ _ rfl]
    rfl
  have hmF : ∀ conf, monitorMeanIncr cexF2 conf = false := by
    intro conf
    unfold monitorMeanIncr detectMeanIncrement
    rw [if_pos (Or.inr (show cexF2.s2i.ewma < 0 by
      norm_num [cexF2, cexA2, cexA, SampleInfo.fresh]))]
  have hdecF : incrDecision cexF2 = (cexF2, false, false) := by
    unfold incrDecision
    rw [hmF, hmF]
    simp
  have hphaseF : incrPhase (freshOf cexA).core 0 = cexF2 := by
    unfold incrPhase updateIncrStatistics freshOf HDDMW.init coreInit cexF2 cexA2 cexA
    norm_num [foldSample, ltCut, SampleInfo.fresh]
  have hdecrF : decrPhase (freshOf cexA).core 0 = { cexF2 with s2d := ⟨0, 1⟩ } := by
    unfold decrPhase
    rw [hphaseF, hdecF]
    show updateDecrStatistics cexF2 0 cexF2.driftConf = _
    unfold updateDecrStatistics
    split
    · rename_i hbad
      exact False.elim hbad
    · rw [show foldSample cexF2.lam cexF2.s2d 0 = ⟨0, 1⟩ by
        unfold foldSample cexF2 cexA2 cexA SampleInfo.fresh
        norm_num]
  have hsF : ((freshOf (cexD.update 1).1).update 0).1.core.s2d.ewma = 0 := by
    rw [h1]
    show (coreUpdate (freshOf cexA).core 0).1.s2d.ewma = 0
    unfold coreUpdate
    rw [hdecrF, decrResetCheck_of_not_twoSided _ _ rfl]
  exact ⟨by rw [h1]; rfl, hsA, hsF, rfl, rfl⟩

/-! ## Helper lemmas for the split-decision procedure -/

theorem sortSuggestions_perm {S : Type} (l : List (SplitSuggestion S)) :
    (sortSuggestions l).Perm l :=
  List.perm_insertionSort _ l

theorem hoeffdingBound_one (rangeMerit n : ℝ) : hoeffdingBound rangeMerit 1 n = 0 := by
  unfold hoeffdingBound
  norm_num [Real.log_one, Real.sqrt_zero]

theorem sort_candsP :
    (sortSuggestions candsP).reverse =
      (⟨1, some ⟨[2]⟩, [(), ()]⟩ : SplitSuggestion Unit) ::
      (⟨1, some ⟨[1]⟩, [(), ()]⟩ : SplitSuggestion Unit) ::
      [(⟨1/2, some ⟨[0]⟩, [(), ()]⟩ : SplitSuggestion Unit)] := by
  unfold candsP sortSuggestions
  rw [show List.insertionSort (fun a b => a.merit ≤ b.merit)
      [(⟨1/2, some ⟨[0]⟩, [(), ()]⟩ : SplitSuggestion Unit),
       ⟨1, some ⟨[1]⟩, [(), ()]⟩, ⟨1, some ⟨[2]⟩, [(), ()]⟩] =
      [(⟨1/2, some ⟨[0]⟩, [(), ()]⟩ : SplitSuggestion Unit),
       ⟨1, some ⟨[1]⟩, [(), ()]⟩, ⟨1, some ⟨[2]⟩, [(), ()]⟩] by
    simp [List.insertionSort, List.orderedInsert]
    norm_num]
  rfl

theorem shouldSplit_candsP : shouldSplitOf cfgP candsP 0 1 = false := by
  unfold shouldSplitOf
  rw [sort_candsP]
  show (if 0 < (1:ℝ) ∧ ((1:ℝ) / 1 < 1 - hoeffdingBound 0 1 1
      ∨ hoeffdingBound 0 1 1 < (0:ℝ)) then true else false) = false
  rw [hoeffdingBound_one, if_neg (by norm_num)]

theorem poorAttTest_eq_some {S : Type} (bMerit sMerit hb : ℝ)
    (sug : SplitSuggestion S) (a : ℕ) :
    poorAttTest bMerit sMerit hb sug = some a ↔
      sug.splitTest = some ⟨[a]⟩ ∧
        sug.merit / bMerit < sMerit / bMerit - 2 * hb := by
  unfold poorAttTest
  rcases hst : sug.splitTest with _ | ⟨atts⟩
  · simp
  · rcases atts with _ | ⟨a0, _ | ⟨a1, r⟩⟩
    · simp
    · show (if sug.merit / bMerit < sMerit / bMerit - 2 * hb
          then some a0 else none) = some a ↔ _
      by_cases hc : sug.merit / bMerit < sMerit / bMerit - 2 * hb
      · rw [if_pos hc]
        simp [hc, eq_comm]
      · rw [if_neg hc]
        simp [hc]
    · simp

/-- **C1** (amended): with at least two split candidates, the split is
approved exactly when `best.merit > 0` and (`secondBest.merit/best.merit
< 1 - ε` or `ε < tieThreshold`); with fewer than two candidates it is
approved iff at least one exists — *regardless of its merit*; and with at
least two candidates a best merit of `0` means the leaf is never split. -/
theorem htr_split_approval {S : Type} (cfg : HTRConfig)
    (cands : List (SplitSuggestion S)) (rangeMerit n : ℝ)
    (b s : SplitSuggestion S) (rest : List (SplitSuggestion S)) :
    ((sortSuggestions cands).reverse = b :: s :: rest →
      (shouldSplitOf cfg cands rangeMerit n = true ↔
        0 < b.merit ∧
          (s.merit / b.merit < 1 - hoeffdingBound rangeMerit cfg.splitConfidence n
            ∨ hoeffdingBound rangeMerit cfg.splitConfidence n < cfg.tieThreshold)))
    ∧ (cands.length < 2 →
        (shouldSplitOf cfg cands rangeMerit n = true ↔ cands ≠ []))
    ∧ ((sortSuggestions cands).reverse = b :: s :: rest → b.merit = 0 →
        shouldSplitOf cfg cands rangeMerit n = false) := by
  refine ⟨?_, ?_, ?_⟩
  · intro hrev
    unfold shouldSplitOf
    rw [hrev]
    show (if 0 < b.merit ∧
        (s.merit / b.merit < 1 - hoeffdingBound rangeMerit cfg.splitConfidence n
          ∨ hoeffdingBound rangeMerit cfg.splitConfidence n < cfg.tieThreshold)
      then true else false) = true ↔ _
    by_cases hc : 0 < b.merit ∧
        (s.merit / b.merit < 1 - hoeffdingBound rangeMerit cfg.splitConfidence n
          ∨ hoeffdingBound rangeMerit cfg.splitConfidence n < cfg.tieThreshold)
    · rw [if_pos hc]
      exact ⟨fun _ => hc, fun _ => rfl⟩
    · rw [if_neg hc]
      exact ⟨fun h => absurd h (by simp), fun h => absurd h hc⟩
  · intro hlen
    have hlen2 : (sortSuggestions cands).reverse.length = cands.length := by
      rw [List.length_reverse, (sortSuggestions_perm cands).length_eq]
    rcases hrl : (sortSuggestions cands).reverse with _ | ⟨x, _ | ⟨y, r2⟩⟩
    · have hnil : cands = [] := by
        have hs : sortSuggestions cands = [] := by
          have := congrArg List.reverse hrl
          simpa using this
        exact ((hs ▸ sortSuggestions_perm cands).symm).eq_nil
      unfold shouldSplitOf
      rw [hrl]
      simp [hnil]
    · have hone : cands.length = 1 := by
        rw [hrl] at hlen2
        simpa using hlen2.symm
      unfold shouldSplitOf
      rw [hrl]
      have : cands ≠ [] := by
        intro h
        rw [h] at hone
        simp at hone
      simp [this]
    · exfalso
      rw [hrl] at hlen2
      simp at hlen2
      omega
  · intro hrev hb0
    unfold shouldSplitOf
    rw [hrev]
    show (if 0 < b.merit ∧
        (s.merit / b.merit < 1 - hoeffdingBound rangeMerit cfg.splitConfidence n
          ∨ hoeffdingBound rangeMerit cfg.splitConfidence n < cfg.tieThreshold)
      then true else false) = false
    rw [if_neg (fun hc => absurd hc.1 (by rw [hb0]; exact lt_irrefl 0))]

/-- **C1** (counterexample to the claim as stated): a split attempt with a
*single* candidate whose merit is `0` and which carries a real (non-null)
test is approved, and the leaf *is* split into a split node — contradicting
"when the best candidate's merit is 0 the leaf is never split". -/
theorem htr_split_zero_merit_cex :
    cexSugg.merit = 0
    ∧ shouldSplitOf cfgP [cexSugg] 0 1 = true
    ∧ (attemptToSplit cfgP cexTree cexLd [] [cexSugg] 0 1).root =
        some (.split ⟨[0]⟩ () 0 [.leaf ⟨(), 1, true, []⟩, .leaf ⟨(), 1, true, []⟩]) := by
  refine ⟨rfl, rfl, rfl⟩

/-- **C3** (confirmed): on an approved split attempt, a null-split winner
deactivates the leaf in place (same statistics, one active leaf becomes an
inactive one, decision-node count unchanged); a real winner replaces the
leaf by a split node carrying the winning test, with one fresh active child
leaf per branch seeded with that branch's post-split statistics, the
decision-node counter incremented by one and the active-leaf counter
incremented by `branches - 1`. -/
theorem htr_split_action {S : Type} (cfg : HTRConfig) (t : HTR S) (ld : LeafData S)
    (path : List ℕ) (cands : List (SplitSuggestion S)) (rangeMerit n : ℝ)
    (b : SplitSuggestion S) (rest : List (SplitSuggestion S))
    (hrev : (sortSuggestions cands).reverse = b :: rest)
    (hss : shouldSplitOf cfg cands rangeMerit n = true) :
    (b.splitTest = none →
      (attemptToSplit cfg t ld path cands rangeMerit n).root
          = t.root.map (·.replaceAt path (.leaf ⟨ld.stats, ld.depth, false, []⟩))
      ∧ (attemptToSplit cfg t ld path cands rangeMerit n).nActiveLeaves
          = t.nActiveLeaves - 1
      ∧ (attemptToSplit cfg t ld path cands rangeMerit n).nInactiveLeaves
          = t.nInactiveLeaves + 1
      ∧ (attemptToSplit cfg t ld path cands rangeMerit n).nDecisionNodes
          = t.nDecisionNodes)
    ∧ (∀ tst, b.splitTest = some tst →
      (attemptToSplit cfg t ld path cands rangeMerit n).root
          = t.root.map (·.replaceAt path
              (.split tst ld.stats ld.depth
                (b.childStats.map (fun st => .leaf ⟨st, ld.depth + 1, true, []⟩))))
      ∧ (attemptToSplit cfg t ld path cands rangeMerit n).nDecisionNodes
          = t.nDecisionNodes + 1
      ∧ (attemptToSplit cfg t ld path cands rangeMerit n).nActiveLeaves
          = t.nActiveLeaves + ((b.childStats.length : ℤ) - 1)
      ∧ (attemptToSplit cfg t ld path cands rangeMerit n).nInactiveLeaves
          = t.nInactiveLeaves) := by
  have key : attemptToSplit cfg t ld path cands rangeMerit n =
      match b.splitTest with
      | none => deactivateLeaf t ld path
      | some tst => executeSplit t ld path b tst := by
    unfold attemptToSplit
    cases rest with
    | nil => rw [hrev]
    | cons s rest' =>
        rw [hrev, hss]
        simp
  constructor
  · intro hnone
    rw [key, hnone]
    exact ⟨rfl, rfl, rfl, rfl⟩
  · intro tst hsome
    rw [key, hsome]
    refine ⟨rfl, rfl, ?_, rfl⟩
    show t.nActiveLeaves - 1 + (b.childStats.length : ℤ) = _
    ring

/-- **C3** (witness): the single-candidate approved split on a concrete
one-leaf tree adds one decision node and one net active leaf. -/
theorem htr_split_action_witness :
    (sortSuggestions candsW).reverse
        = (⟨1, some ⟨[0]⟩, [(), ()]⟩ : SplitSuggestion Unit) :: []
    ∧ shouldSplitOf cfgP candsW 0 1 = true
    ∧ (attemptToSplit cfgP cexTree cexLd [] candsW 0 1).nDecisionNodes
        = cexTree.nDecisionNodes + 1
    ∧ (attemptToSplit cfgP cexTree cexLd [] candsW 0 1).nActiveLeaves
        = cexTree.nActiveLeaves + (((⟨1, some ⟨[0]⟩, [(), ()]⟩ :
            SplitSuggestion Unit).childStats.length : ℤ) - 1) :=
  ⟨rfl, rfl,
    ((htr_split_action cfgP cexTree cexLd [] candsW 0 1 _ [] rfl rfl).2
      ⟨[0]⟩ rfl).2.1,
    ((htr_split_action cfgP cexTree cexLd [] candsW 0 1 _ [] rfl rfl).2
      ⟨[0]⟩ rfl).2.2.1⟩

/-- **C4** (amended): an attribute is disabled exactly when
`remove_poor_atts` is configured, at least two candidates exist, and some
candidate testing exactly that attribute has a merit ratio more than `2ε`
below the second-best-to-best ratio — *whether or not the split was
approved*; with fewer than two candidates nothing is disabled; and on a
non-approved attempt with at least two candidates the only change to the
tree is that the leaf's disabled set grows by those attributes (all node
counters unchanged). -/
theorem htr_poor_atts {S : Type} (cfg : HTRConfig) (t : HTR S) (ld : LeafData S)
    (path : List ℕ) (cands : List (SplitSuggestion S)) (rangeMerit n : ℝ)
    (a : ℕ) (b s : SplitSuggestion S) (rest : List (SplitSuggestion S)) :
    ((sortSuggestions cands).reverse = b :: s :: rest →
      (a ∈ poorAttsOf cfg cands rangeMerit n ↔
        cfg.removePoorAtts = true ∧
        ∃ sug ∈ cands, sug.splitTest = some ⟨[a]⟩ ∧
          sug.merit / b.merit <
            s.merit / b.merit - 2 * hoeffdingBound rangeMerit cfg.splitConfidence n))
    ∧ (cands.length < 2 → poorAttsOf cfg cands rangeMerit n = [])
    ∧ ((sortSuggestions cands).reverse = b :: s :: rest →
        shouldSplitOf cfg cands rangeMerit n = false →
        (attemptToSplit cfg t ld path cands rangeMerit n).root
            = t.root.map (·.replaceAt path
                (.leaf { ld with
                  disabled := ld.disabled ++ poorAttsOf cfg cands rangeMerit n }))
        ∧ (attemptToSplit cfg t ld path cands rangeMerit n).nActiveLeaves
            = t.nActiveLeaves
        ∧ (attemptToSplit cfg t ld path cands rangeMerit n).nInactiveLeaves
            = t.nInactiveLeaves
        ∧ (attemptToSplit cfg t ld path cands rangeMerit n).nDecisionNodes
            = t.nDecisionNodes) := by
  refine ⟨?_, ?_, ?_⟩
  · intro hrev
    unfold poorAttsOf
    rw [hrev]
    by_cases hrp : cfg.removePoorAtts = true
    · show a ∈ (if cfg.removePoorAtts = true then _ else []) ↔ _
      rw [if_pos hrp, List.mem_dedup, List.mem_filterMap]
      constructor
      · rintro ⟨sug, hmem, hf⟩
        rw [poorAttTest_eq_some] at hf
        exact ⟨hrp, sug, (sortSuggestions_perm cands).mem_iff.mp hmem, hf⟩
      · rintro ⟨-, sug, hmem, hst, hcond⟩
        exact ⟨sug, (sortSuggestions_perm cands).mem_iff.mpr hmem,
          (poorAttTest_eq_some _ _ _ _ _).mpr ⟨hst, hcond⟩⟩
    · show a ∈ (if cfg.removePoorAtts = true then _ else []) ↔ _
      rw [if_neg hrp]
      simp [hrp]
  · intro hlen
    have hlen2 : (sortSuggestions cands).reverse.length = cands.length := by
      rw [List.length_reverse, (sortSuggestions_perm cands).length_eq]
    rcases hrl : (sortSuggestions cands).reverse with _ | ⟨x, _ | ⟨y, r2⟩⟩
    · unfold poorAttsOf
      rw [hrl]
    · unfold poorAttsOf
      rw [hrl]
    · exfalso
      rw [hrl] at hlen2
      simp at hlen2
      omega
  · intro hrev hss
    unfold attemptToSplit
    rw [hrev, hss]
    exact ⟨rfl, rfl, rfl, rfl⟩

/-- **C4** (counterexample to the claim as stated): a concrete non-approved
split attempt (two tied best candidates, zero bound, zero tie threshold)
still disables attribute `0`, whose candidate merit ratio is more than `2ε`
below the second-best-to-best ratio — contradicting "on a non-approved
attempt no attribute is disabled". -/
theorem htr_poor_atts_cex :
    shouldSplitOf cfgP candsP 0 1 = false
    ∧ (0 : ℕ) ∈ poorAttsOf cfgP candsP 0 1
    ∧ (attemptToSplit cfgP cexTree cexLd [] candsP 0 1).root
        = some (.leaf ⟨(), 0, true, [0]⟩) := by
  have hpoor : poorAttsOf cfgP candsP 0 1 = [0] := by
    have e1 : poorAttTest
        (⟨1, some ⟨[2]⟩, [(), ()]⟩ : SplitSuggestion Unit).merit
        (⟨1, some ⟨[1]⟩, [(), ()]⟩ : SplitSuggestion Unit).merit 0
        (⟨1/2, some ⟨[0]⟩, [(), ()]⟩ : SplitSuggestion Unit) = some 0 := by
      unfold poorAttTest
      show (if (1:ℝ)/2 / 1 < 1 / 1 - 2 * 0 then some 0 else none) = some 0
      rw [if_pos (by norm_num)]
    have e2 : poorAttTest
        (⟨1, some ⟨[2]⟩, [(), ()]⟩ : SplitSuggestion Unit).merit
        (⟨1, some ⟨[1]⟩, [(), ()]⟩ : SplitSuggestion Unit).merit 0
        (⟨1, some ⟨[1]⟩, [(), ()]⟩ : SplitSuggestion Unit) = none := by
      unfold poorAttTest
      show (if (1:ℝ) / 1 < 1 / 1 - 2 * 0 then some 1 else none) = none
      rw [if_neg (by norm_num)]
    have e3 : poorAttTest
        (⟨1, some ⟨[2]⟩, [(), ()]⟩ : SplitSuggestion Unit).merit
        (⟨1, some ⟨[1]⟩, [(), ()]⟩ : SplitSuggestion Unit).merit 0
        (⟨1, some ⟨[2]⟩, [(), ()]⟩ : SplitSuggestion Unit) = none := by
      unfold poorAttTest
      show (if (1:ℝ) / 1 < 1 / 1 - 2 * 0 then some 2 else none) = none
      rw [if_neg (by norm_num)]
    unfold poorAttsOf
    rw [sort_candsP]
    show (if cfgP.removePoorAtts = true then _ else []) = [0]
    rw [if_pos (show cfgP.removePoorAtts = true from rfl)]
    rw [show (sortSuggestions candsP) =
        [(⟨1/2, some ⟨[0]⟩, [(), ()]⟩ : SplitSuggestion Unit),
         ⟨1, some ⟨[1]⟩, [(), ()]⟩, ⟨1, some ⟨[2]⟩, [(), ()]⟩] by
      have := congrArg List.reverse sort_candsP
      simpa using this]
    rw [show cfgP.splitConfidence = (1:ℝ) from rfl, hoeffdingBound_one]
    simp only [List.filterMap_cons, List.filterMap_nil, e1, e2, e3]
    rfl
  refine ⟨shouldSplit_candsP, by rw [hpoor]; exact List.mem_singleton.mpr rfl, ?_⟩
  unfold attemptToSplit
  rw [sort_candsP, shouldSplit_candsP]
  show (cexTree.root.map (·.replaceAt []
      (.leaf { cexLd with disabled := cexLd.disabled ++ poorAttsOf cfgP candsP 0 1 }))) =
    some (.leaf ⟨(), 0, true, [0]⟩)
  rw [hpoor]
  rfl

/-- **C4** (witness): at the concrete non-approved attempt, attribute `0`
is in the disabled set and the tree keeps its counters. -/
theorem htr_poor_atts_witness :
    ((0 : ℕ) ∈ poorAttsOf cfgP candsP 0 1 ↔
      cfgP.removePoorAtts = true ∧
      ∃ sug ∈ candsP, sug.splitTest = some ⟨[0]⟩ ∧
        sug.merit / (⟨1, some ⟨[2]⟩, [(), ()]⟩ : SplitSuggestion Unit).merit <
          (⟨1, some ⟨[1]⟩, [(), ()]⟩ : SplitSuggestion Unit).merit /
              (⟨1, some ⟨[2]⟩, [(), ()]⟩ : SplitSuggestion Unit).merit -
            2 * hoeffdingBound 0 cfgP.splitConfidence 1)
    ∧ (attemptToSplit cfgP cexTree cexLd [] candsP 0 1).nDecisionNodes
        = cexTree.nDecisionNodes :=
  ⟨(htr_poor_atts cfgP cexTree cexLd [] candsP 0 1 0 _ _ _).1 sort_candsP,
    ((htr_poor_atts cfgP cexTree cexLd [] candsP 0 1 0 _ _ _).2.2 sort_candsP
      shouldSplit_candsP).2.2.2⟩

/-- **C1** (witness): the approval characterization evaluated at the
concrete two-best-tied candidate list. -/
theorem htr_split_approval_witness :
    shouldSplitOf cfgP candsP 0 1 = true ↔
      0 < (⟨1, some ⟨[2]⟩, [(), ()]⟩ : SplitSuggestion Unit).merit ∧
        ((⟨1, some ⟨[1]⟩, [(), ()]⟩ : SplitSuggestion Unit).merit /
              (⟨1, some ⟨[2]⟩, [(), ()]⟩ : SplitSuggestion Unit).merit <
            1 - hoeffdingBound 0 cfgP.splitConfidence 1
          ∨ hoeffdingBound 0 cfgP.splitConfidence 1 < cfgP.tieThreshold) :=
  (htr_split_approval cfgP candsP 0 1 _ _ _).1 sort_candsP

/-! ## Prediction combination and empty-tree prediction -/

/-- A fold whose body conditionally folds a projection equals the fold of
the projected filtered list. -/
theorem foldl_ite_filter {α β γ : Type} (p : α → Bool) (f : α → β)
    (g : γ → β → γ) :
    ∀ (l : List α) (init : γ),
      l.foldl (fun acc x => if p x then g acc (f x) else acc) init
        = ((l.filter p).map f).foldl g init := by
  intro l
  induction l with
  | nil => intro init; rfl
  | cons x xs ih =>
      intro init
      by_cases hp : p x
      · simp only [List.foldl_cons, List.filter_cons, hp, if_true, List.map_cons]
        exact ih (g init (f x))
      · simp only [List.foldl_cons, List.filter_cons, hp, if_false,
          Bool.false_eq_true]
        exact ih init

/-- **C5** (confirmed): `predict_proba_one` combines exactly the reached
leaves whose `parent_branch` tag is not `-999` (the alternate-subtree-root
marker): it sums their class-weight distributions over the zero-initialised
class dict and normalizes the sum (the creme variant starts from the empty
dict and ends with its softmax, modelled from the spec as the same
normalization). -/
theorem hat_predict_combines {C : Type} [DecidableEq C] (classes : List C)
    (found : List (FoundLeaf C)) :
    predictProbaOne classes true found
        = normalizeValuesInDict
            (((found.filter (fun fn => fn.parentBranch != -999)).map
                FoundLeaf.dist).foldl
              addDictValues (classes.map (fun c => (c, 0.0))))
    ∧ cremePredictProbaOne true found
        = softmaxSpec
            (((found.filter (fun fn => fn.parentBranch != -999)).map
                FoundLeaf.dist).foldl
              addDictValues []) := by
  constructor
  · show normalizeValuesInDict _ = _
    exact congrArg _ (foldl_ite_filter _ _ _ found _)
  · show softmaxSpec _ = _
    exact congrArg _ (foldl_ite_filter _ _ _ found _)

/-- **C9** (confirmed): predicting on a tree that has never seen an example
(`_tree_root is None`) returns the neutral default — `0.` for the
regressor, the empty class dict for both adaptive classifiers (the fresh
tree's class set is empty) — and takes no fallible step. -/
theorem empty_tree_prediction {S X C : Type} [DecidableEq C]
    (filt : RNode S → X → Option (RNode S)) (leafPred : LeafData S → X → ℝ)
    (statsIdx : S → ℕ → ℝ) (x : X) (nA nI nD : ℤ)
    (found : List (FoundLeaf C)) :
    predictOneR filt leafPred statsIdx ⟨none, nA, nI, nD⟩ x = .ok 0
    ∧ predictProbaOne ([] : List C) false found = []
    ∧ cremePredictProbaOne false found = ([] : List (C × ℝ)) :=
  ⟨rfl, rfl, rfl⟩

/-- **C8** (code evaluation): both creme `learn_one` bodies end without a
`return` statement, so the call evaluates to `None`; the river version
returns the tree itself. -/
theorem creme_learn_one_returns_none :
    (cremeAdaptiveLearnOne () (fun r _ _ _ => r) cexHatc () (0 : ℕ) 1).2 = none
    ∧ (cremeRegressorLearnOne cexLd (fun t _ _ _ => t) cexTree () 0 1).2 = none
    ∧ (riverLearnOne () (fun r _ _ _ => r) cexHatc () (0 : ℕ) 1).2
        = some (riverLearnOne () (fun r _ _ _ => r) cexHatc () (0 : ℕ) 1).1 :=
  ⟨rfl, rfl, rfl⟩

/-! ## Chain models leave the caller's feature dict unchanged -/

/-- A fold of `chainStep` iterations writes the heap only at slot `cr`, so
every other slot is untouched. -/
theorem foldl_set_frame {α σ γ : Type} (cr i : ℕ) (hne : i ≠ cr)
    (F : σ × List α → γ → σ) (G : σ × List α → γ → α) :
    ∀ (l : List γ) (acc : σ × List α),
      ((l.foldl (chainStep cr F G) acc).2).get? i = acc.2.get? i := by
  intro l
  induction l with
  | nil => intro acc; rfl
  | cons o l ih =>
      intro acc
      rw [List.foldl_cons, ih]
      exact List.get?_set_ne _ _ (fun h => hne h.symm)

/-- **C10** (confirmed): the chain models' `learn_one` and prediction
operations work on a `copy.copy` of the caller's feature dict; every
per-output prediction is inserted into that copy, so the caller's dict
(heap slot `i`) is unchanged. -/
theorem chain_x_unchanged {K L V B W M M' : Type} [DecidableEq K]
    (apiR : RegModelAPI K V M) (apiC : ClfModelAPI K L V B W M')
    (baseR : M) (baseC : M') (comboL : K → L → K) (comboK : K → K → K)
    (embV : V → W) (embD : Dict L V → W) (trueL : L) (dV : V) (dB : B)
    (dD : Dict L V) (modelsR : Dict K M) (modelsC : Dict K M')
    (order : Option (List K)) (heap : Heap K V) (heapW : Heap K W) (xr : ℕ)
    (yR : Dict K V) (yC : Dict K B) (i : ℕ) :
    (i < heap.length →
      (regChainLearnOne apiR baseR dV modelsR order heap xr yR).2.2.get? i
        = heap.get? i)
    ∧ (i < heapW.length →
      (clfChainLearnOne apiC baseC comboL embV trueL dV dB modelsC order heapW
          xr yC).2.2.get? i
        = heapW.get? i)
    ∧ (i < heapW.length →
      (clfChainPredictProbaOne apiC baseC comboK embD embV trueL dV dD modelsC
          order heapW xr).2.get? i
        = heapW.get? i) := by
  refine ⟨?_, ?_, ?_⟩
  · intro hi
    have h1 : ((heap ++ [heapRead heap xr]).get? i) = heap.get? i :=
      List.get?_append hi
    cases order with
    | none =>
        exact (foldl_set_frame heap.length i (Nat.ne_of_lt hi) _ _ (dictKeys yR)
          ((dictKeys yR).foldl (fun m o => dictSet m o baseR) modelsR,
            heap ++ [heapRead heap xr])).trans h1
    | some ord =>
        exact (foldl_set_frame heap.length i (Nat.ne_of_lt hi) _ _ ord
          (modelsR, heap ++ [heapRead heap xr])).trans h1
  · intro hi
    have h1 : ((heapW ++ [heapRead heapW xr]).get? i) = heapW.get? i :=
      List.get?_append hi
    cases order with
    | none =>
        exact (foldl_set_frame heapW.length i (Nat.ne_of_lt hi) _ _ (dictKeys yC)
          ((dictKeys yC).foldl (fun m o => dictSet m o baseC) modelsC,
            heapW ++ [heapRead heapW xr])).trans h1
    | some ord =>
        exact (foldl_set_frame heapW.length i (Nat.ne_of_lt hi) _ _ ord
          (modelsC, heapW ++ [heapRead heapW xr])).trans h1
  · intro hi
    have h1 : ((heapW ++ [heapRead heapW xr]).get? i) = heapW.get? i :=
      List.get?_append hi
    cases order with
    | none => exact h1
    | some ord =>
        exact (foldl_set_frame heapW.length i (Nat.ne_of_lt hi) _ _ ord
          ([], heapW ++ [heapRead heapW xr])).trans h1

/-- **C10** (witness): a concrete singleton heap is untouched by all three
chain operations. -/
theorem chain_x_unchanged_witness :
    (0 : ℕ) < heapOne.length
    ∧ (regChainLearnOne apiRW () 0 [] (some [3]) heapOne 0
        [(3, 4)]).2.2.get? 0 = heapOne.get? 0
    ∧ (clfChainLearnOne apiCW () (fun o l => o + l) id 0 0 0 [] (some [3])
        heapOne 0 [(3, 4)]).2.2.get? 0 = heapOne.get? 0
    ∧ (clfChainPredictProbaOne apiCW () (fun o k => o + k) (fun _ => 9) id 0 0
        [] [] (some [3]) heapOne 0).2.get? 0 = heapOne.get? 0 :=
  ⟨by decide,
    (chain_x_unchanged apiRW apiCW () () (fun o l => o + l) (fun o k => o + k)
      id (fun _ => 9) 0 0 0 [] [] [] (some [3]) heapOne heapOne 0
      [(3, 4)] [(3, 4)] 0).1 (by decide),
    (chain_x_unchanged apiRW apiCW () () (fun o l => o + l) (fun o k => o + k)
      id (fun _ => 9) 0 0 0 [] [] [] (some [3]) heapOne heapOne 0
      [(3, 4)] [(3, 4)] 0).2.1 (by decide),
    (chain_x_unchanged apiRW apiCW () () (fun o l => o + l) (fun o k => o + k)
      id (fun _ => 9) 0 0 0 [] [] [] (some [3]) heapOne heapOne 0
      [(3, 4)] [(3, 4)] 0).2.2 (by decide)⟩

/-- **C2** (witness): at the concrete drift-raising state the increase
monitor fires at driftConfidence and the resulting state's accumulators
are freshly reset. -/
theorem hddmw_update_incr_flow_witness :
    monitorMeanIncr (incrPhase (oneSided cexCore) 1) cexCore.driftConf = true
    ∧ ((HDDMW.update ⟨oneSided cexCore, false, false, none⟩ 1).1.core.total
          = SampleInfo.fresh
      ∧ (HDDMW.update ⟨oneSided cexCore, false, false, none⟩ 1).1.core.s1i
          = SampleInfo.fresh
      ∧ (HDDMW.update ⟨oneSided cexCore, false, false, none⟩ 1).1.core.s2i
          = SampleInfo.fresh
      ∧ (HDDMW.update ⟨oneSided cexCore, false, false, none⟩ 1).1.core.s1d
          = SampleInfo.fresh
      ∧ (HDDMW.update ⟨oneSided cexCore, false, false, none⟩ 1).1.core.incrCut
          = none
      ∧ (HDDMW.update ⟨oneSided cexCore, false, false, none⟩ 1).1.core.decrCut
          = none
      ∧ (HDDMW.update ⟨oneSided cexCore, false, false, none⟩ 1).1.core.width = 0
      ∧ (HDDMW.update ⟨oneSided cexCore, false, false, none⟩ 1).1.core.delay = 0) := by
  have hm : monitorMeanIncr (incrPhase (oneSided cexCore) 1) cexCore.driftConf = true := by
    show monitorMeanIncr (incrPhase cexD.core 1) cexC2.driftConf = true
    rw [cexCore_phase]
    exact cexCore_monitor
  exact ⟨hm, (hddmw_update_incr_flow cexCore false false none 1).2.2.1 hm⟩

/-- **C7** (witness): at the concrete two-sided state the decrease test
fires and the resulting state's accumulators are freshly reset. -/
theorem hddmw_decr_branch_witness :
    decrFires cex7D.core 1 = true
    ∧ ((cex7D.update 1).1.core.total = SampleInfo.fresh
      ∧ (cex7D.update 1).1.core.s1i = SampleInfo.fresh
      ∧ (cex7D.update 1).1.core.s2i = SampleInfo.fresh
      ∧ (cex7D.update 1).1.core.s1d = SampleInfo.fresh
      ∧ (cex7D.update 1).1.core.s2d = SampleInfo.fresh
      ∧ (cex7D.update 1).1.core.incrCut = none
      ∧ (cex7D.update 1).1.core.decrCut = none
      ∧ (cex7D.update 1).1.core.width = 0
      ∧ (cex7D.update 1).1.core.delay = 0) :=
  ⟨cex7_decrFires, (hddmw_decr_branch cex7D 1).2 cex7_decrFires⟩

end River
